import Mathlib

/-!
Verification of the beam-center / flux post-translation pipeline
(`src/tools/post_translation_operation_template.py`).

The numerical core of the script is embedded shallowly:
* a reduced 2-D detector frame is a `Frame`: a shape (rows, cols) together
  with a total intensity function `ℕ → ℕ → ℚ` (pixel intensities are modelled
  as exact rationals; the float literals `1e6` and `0.0001` of the source are
  modelled as the rationals `1000000` and `1/10000`);
* N-dimensional arrays (before reduction) are `NDArr`: a shape list plus an
  intensity function on index lists, with `ndim` the length of the shape,
  mirroring `numpy.ndarray.ndim`;
* Python's `int()` truncation toward zero is `pyInt`; Python slice bounds
  `max(int(c - R), 0)` and `min(int(c + R), n)` are `sliceLo` / `sliceHi`,
  and a slice `a[s:e]` with `0 ≤ s` and `e ≤ n` covers indices `s ≤ i < e`,
  i.e. the half-open interval `Finset.Ico s e`;
* the failure behaviour of `main` is made explicit as an `Except PipeError`:
  the only error the numerical core can actually raise is the `IndexError`
  from `properties[0]` when `regionprops` returns an empty list.  The error
  type also carries the spec's `ShapeError`, `NoRegionFound` and
  `InvalidExposureTime` conditions so that statements about them can be
  expressed; the code never produces them.
-/

/-- A reduced 2-D detector frame: spatial shape plus intensity lookup.
Mirrors a 2-D `numpy` array of shape `(rows, cols)`. -/
structure Frame where
  rows : ℕ
  cols : ℕ
  val : ℕ → ℕ → ℚ

/-- Python `int()` applied to a real number: truncation toward zero. -/
def pyInt (x : ℚ) : ℤ :=
  if 0 ≤ x then ⌊x⌋ else ⌈x⌉

/-- Line 76: `labeled_foreground = (np.logical_and(imageData >= 0, imageData <= 1e6)).astype(int)`.
The validity mask as a 0/1 integer image. -/
def labeledForeground (f : Frame) (i j : ℕ) : ℤ :=
  if 0 ≤ f.val i j ∧ f.val i j ≤ 1000000 then 1 else 0

/-- Line 77: `maskedTwoDImage = imageData * labeled_foreground`. -/
def maskedImage (f : Frame) : Frame :=
  ⟨f.rows, f.cols, fun i j => f.val i j * (labeledForeground f i j : ℚ)⟩

/-- `maskedTwoDImage.max()`: the maximum intensity over the (in-range) pixels,
computed as a fold with initial accumulator `0`.  For the masked image this
agrees with `numpy` on every nonempty frame, since all masked values are
nonnegative. -/
def frameMaxQ (f : Frame) : ℚ :=
  (List.range f.rows).foldl
    (fun acc i => (List.range f.cols).foldl (fun a j => max a (f.val i j)) acc) 0

/-- Line 78: `threshold_value = np.maximum(1, 0.0001 * maskedTwoDImage.max())`. -/
def thresholdValue (f : Frame) : ℚ :=
  max 1 ((1 / 10000) * frameMaxQ (maskedImage f))

/-- Line 79: `labeled_peak = (maskedTwoDImage > threshold_value).astype(int)`. -/
def labeledPeak (f : Frame) (i j : ℕ) : ℤ :=
  if thresholdValue f < (maskedImage f).val i j then 1 else 0

/-- The set of foreground pixels: the pixels carrying label `1` in
`labeled_peak`.  `skimage.measure.regionprops` reports one region per distinct
positive label, so `properties[0]` (when it exists) is exactly this pixel
set. -/
def foregroundSet (f : Frame) : Finset (ℕ × ℕ) :=
  (Finset.range f.rows ×ˢ Finset.range f.cols).filter
    (fun p => labeledPeak f p.1 p.2 = 1)

/-- Line 81: `properties[0].centroid` — the unweighted centroid of the region:
arithmetic mean of the (row, col) coordinates of the foreground pixels. -/
def centroidOf (f : Frame) : ℚ × ℚ :=
  ((∑ p in foregroundSet f, (p.1 : ℚ)) / ((foregroundSet f).card : ℚ),
   (∑ p in foregroundSet f, (p.2 : ℚ)) / ((foregroundSet f).card : ℚ))

/-- The intensity-weighted centroid of the foreground region with respect to an
arbitrary weight image `w`: `sum(coord * w) / sum(w)` over the region pixels,
as computed by `regionprops(...).weighted_centroid` for intensity image `w`. -/
def wCentroidWith (f : Frame) (w : ℕ → ℕ → ℚ) : ℚ × ℚ :=
  ((∑ p in foregroundSet f, w p.1 p.2 * (p.1 : ℚ)) / (∑ p in foregroundSet f, w p.1 p.2),
   (∑ p in foregroundSet f, w p.1 p.2 * (p.2 : ℚ)) / (∑ p in foregroundSet f, w p.1 p.2))

/-- Line 80/82: `properties = regionprops(labeled_peak, imageData)` followed by
`properties[0].weighted_centroid`.  The intensity image passed is `imageData`,
the raw reduced frame, so the weights are the raw pixel values `f.val`. -/
def weightedCentroidOf (f : Frame) : ℚ × ℚ :=
  wCentroidWith f f.val

/-- Lower bound of the ROI slice: `np.maximum(int(c - ROI_SIZE), 0)`. -/
def sliceLo (c : ℚ) (R : ℕ) : ℕ :=
  (max (pyInt (c - (R : ℚ))) 0).toNat

/-- Upper bound of the ROI slice: `np.minimum(int(c + ROI_SIZE), n)` where `n`
is the frame extent along that axis. -/
def sliceHi (n : ℕ) (c : ℚ) (R : ℕ) : ℕ :=
  (min (pyInt (c + (R : ℚ))) (n : ℤ)).toNat

/-- Lines 84–87: `ITotal_region = np.sum(maskedTwoDImage[lo0:hi0, lo1:hi1])`.
A Python slice `a[s:e]` with `0 ≤ s` and `e ≤ len(a)` selects indices
`s ≤ i < e`, so the summation ranges over the half-open box
`Ico lo0 hi0 × Ico lo1 hi1`.  (Faithful for centroids with nonnegative
coordinates, which is all `regionprops` can produce.) -/
def iTotalRegion (m : Frame) (c : ℚ × ℚ) (R : ℕ) : ℚ :=
  ∑ i in Finset.Ico (sliceLo c.1 R) (sliceHi m.rows c.1 R),
    ∑ j in Finset.Ico (sliceLo c.2 R) (sliceHi m.cols c.2 R), m.val i j

/-- The failure conditions relevant to the pipeline.  `indexError` is the
`IndexError` raised by `properties[0]` on an empty region list; the remaining
three are the conditions named by the specification (`ShapeError`,
`NoRegionFound`, `InvalidExposureTime`), which the code never signals. -/
inductive PipeError where
  | indexError
  | shapeError
  | noRegionFound
  | invalidExposureTime
deriving DecidableEq, Repr

/-- The derived result pair of `main`: the unweighted center of mass and the
flux `ITotal_region / recordingTime`. -/
structure PipeResult where
  centerOfMass : ℚ × ℚ
  flux : ℚ
deriving DecidableEq, Repr

/-- Lines 76–90 of `main`, starting from the reduced 2-D frame: mask, threshold,
label, take `properties[0]` (an `IndexError` when no pixel is labeled), then
integrate the masked image over the ROI around the weighted centroid and divide
by the exposure time.  No validation of the exposure time is performed; the
division is carried out for any exposure time.  (At `exposure = 0` `numpy`
returns `inf` with a runtime warning rather than raising; no theorem below
relies on the value of the division at zero.) -/
def runPipeline (f : Frame) (exposure : ℚ) (roiSize : ℕ) : Except PipeError PipeResult :=
  if (foregroundSet f).card = 0 then
    .error .indexError
  else
    .ok ⟨centroidOf f,
         iTotalRegion (maskedImage f) (weightedCentroidOf f) roiSize / exposure⟩

/-- Error conditions for the key-value configuration lookup on line 60:
`KeyError` from `keyvals['roi_size']` and `ValueError` from `int(...)`. -/
inductive KVError where
  | keyNotFound
  | valueError
deriving DecidableEq, Repr

/-- Python dictionary access `kv[k]`: the value at key `k`, or a `KeyError`. -/
def lookupKV (kv : List (String × String)) (k : String) : Except KVError String :=
  match kv.find? (fun p => p.1 = k) with
  | some p => .ok p.2
  | none => .error .keyNotFound

/-- Line 60: `ROI_SIZE = 25 if keyvals is None else int(keyvals['roi_size'])`.
When a key-value mapping is supplied, the key `'roi_size'` is looked up
unconditionally (a missing key is a `KeyError`) and its value is converted
with `int(...)` (a non-numeric value is a `ValueError`). -/
def roiSizeOf (keyvals : Option (List (String × String))) : Except KVError ℤ :=
  match keyvals with
  | none => .ok 25
  | some kv =>
    match lookupKV kv "roi_size" with
    | .error e => .error e
    | .ok s =>
      match s.toInt? with
      | some n => .ok n
      | none => .error .valueError

/-- An N-dimensional numeric array: a shape list together with an intensity
lookup on index lists.  `ndim` is the length of the shape, as in `numpy`. -/
structure NDArr where
  shape : List ℕ
  val : List ℕ → ℚ

/-- `numpy.ndarray.ndim`. -/
def NDArr.ndim (a : NDArr) : ℕ :=
  a.shape.length

/-- `np.mean(a, axis=0)`: drops the leading axis and replaces each entry by the
arithmetic mean over that axis (sum over the leading index divided by the
leading extent). -/
def meanAxis0 (a : NDArr) : NDArr :=
  ⟨a.shape.tail,
   fun ix => (∑ i in Finset.range (a.shape.headD 0), a.val (i :: ix)) / ((a.shape.headD 0 : ℕ) : ℚ)⟩

/-- The loop of lines 72–73, with an explicit iteration budget:
`while imageData.ndim > 2: imageData = np.mean(imageData, axis=0)`. -/
def reduceSteps : ℕ → NDArr → NDArr
  | 0, a => a
  | n + 1, a => if a.ndim > 2 then reduceSteps n (meanAxis0 a) else a

/-- Lines 72–73: the Frame Reducer.  Each pass of the loop drops one axis, so
`a.ndim` passes always suffice. -/
def frameReduce (a : NDArr) : NDArr :=
  reduceSteps a.ndim a

/-- A stack of `k` identical copies of `m` along a new leading axis, i.e. the
array of shape `k :: m.shape` whose slices along axis 0 are all `m`. -/
def stackOf (k : ℕ) (m : NDArr) : NDArr :=
  ⟨k :: m.shape, fun ix => m.val ix.tail⟩

/-- 100×100 all-ones frame (used as a masked frame). -/
def onesFrame100 : Frame :=
  ⟨100, 100, fun _ _ => 1⟩

/-- 2×2 all-zero frame: after masking it stays all-zero, so no pixel exceeds
the threshold and the foreground is empty. -/
def zeroFrame2 : Frame :=
  ⟨2, 2, fun _ _ => 0⟩

/-- 3×3 frame with a single bright valid pixel of intensity 100000 at (1,1). -/
def peakFrame3 : Frame :=
  ⟨3, 3, fun i j => if i = 1 ∧ j = 1 then 100000 else 0⟩

/-- 2×2 frame every pixel of which is invalid (negative), so the masked image
is all-zero and the foreground is empty. -/
def negFrame2 : Frame :=
  ⟨2, 2, fun _ _ => -5⟩

/-! ### Helper lemmas -/

/-- `max(int(c - R), 0)` at a natural centroid coordinate is truncated
natural subtraction. -/
lemma sliceLo_nat (c R : ℕ) : sliceLo (c : ℚ) R = c - R := by
  unfold sliceLo pyInt
  by_cases h : (R : ℕ) ≤ c
  · rw [if_pos (by simp only [sub_nonneg, Nat.cast_le]; exact h)]
    rw [show ((c : ℚ) - (R : ℚ)) = (((c : ℤ) - (R : ℤ) : ℤ) : ℚ) by push_cast; ring,
      Int.floor_intCast]
    omega
  · rw [if_neg (by simp only [sub_nonneg, Nat.cast_le]; exact h)]
    rw [show ((c : ℚ) - (R : ℚ)) = (((c : ℤ) - (R : ℤ) : ℤ) : ℚ) by push_cast; ring,
      Int.ceil_intCast]
    omega

/-- `min(int(c + R), n)` at a natural centroid coordinate. -/
lemma sliceHi_nat (n c R : ℕ) : sliceHi n (c : ℚ) R = min (c + R) n := by
  unfold sliceHi pyInt
  rw [if_pos (by positivity)]
  rw [show ((c : ℚ) + (R : ℚ)) = (((c : ℤ) + (R : ℤ) : ℤ) : ℚ) by push_cast; ring,
    Int.floor_intCast]
  omega

/-- The upper slice bound never exceeds the frame extent. -/
lemma sliceHi_le (n : ℕ) (c : ℚ) (R : ℕ) : sliceHi n c R ≤ n := by
  unfold sliceHi
  omega

/-- A fold of `max` starting from `c` stays at `c` when every folded value is
at most `c`. -/
lemma foldl_max_le (g : ℕ → ℚ) : ∀ (l : List ℕ) (c : ℚ), (∀ j ∈ l, g j ≤ c) →
    l.foldl (fun a j => max a (g j)) c = c := by
  intro l
  induction l with
  | nil => intro c _; rfl
  | cons j t ih =>
    intro c h
    have hj : max c (g j) = c := max_eq_left (h j (List.mem_cons_self j t))
    simp only [List.foldl_cons, hj]
    exact ih c (fun x hx => h x (List.mem_cons_of_mem j hx))

/-- `frame.max()` of an (in-range) all-zero frame is `0`. -/
lemma frameMaxQ_zero (f : Frame)
    (h : ∀ i j, i < f.rows → j < f.cols → f.val i j = 0) : frameMaxQ f = 0 := by
  unfold frameMaxQ
  have key : ∀ (l : List ℕ), (∀ i ∈ l, i < f.rows) →
      l.foldl (fun acc i => (List.range f.cols).foldl (fun a j => max a (f.val i j)) acc) 0
        = 0 := by
    intro l
    induction l with
    | nil => intro _; rfl
    | cons i t ih =>
      intro hl
      have hi : i < f.rows := hl i (List.mem_cons_self i t)
      have hstep : (List.range f.cols).foldl (fun a j => max a (f.val i j)) 0 = 0 := by
        apply foldl_max_le
        intro j hj
        rw [h i j hi (List.mem_range.mp hj)]
      simp only [List.foldl_cons, hstep]
      exact ih (fun x hx => hl x (List.mem_cons_of_mem i hx))
  exact key (List.range f.rows) (fun i hi => List.mem_range.mp hi)

/-- When the masked frame is all-zero, the threshold floors at `1` and no
pixel strictly exceeds it, so the foreground is empty. -/
lemma foreground_empty_of_masked_zero (f : Frame)
    (h : ∀ i j, i < f.rows → j < f.cols → (maskedImage f).val i j = 0) :
    foregroundSet f = ∅ := by
  have hthr : thresholdValue f = 1 := by
    unfold thresholdValue
    rw [frameMaxQ_zero (maskedImage f) h]
    norm_num
  ext p
  simp only [foregroundSet, Finset.mem_filter, Finset.mem_product, Finset.mem_range,
    Finset.not_mem_empty, iff_false, not_and, labeledPeak]
  intro h1 h2
  rw [h p.1 p.2 h1.1 h1.2, hthr] at h2
  norm_num at h2

/-- The foreground of the all-zero frame is empty. -/
lemma zero2_fg_empty : foregroundSet zeroFrame2 = ∅ := by
  apply foreground_empty_of_masked_zero
  intro i j _ _
  simp [maskedImage, zeroFrame2]

/-- The foreground of the all-invalid (all-negative) frame is empty. -/
lemma neg2_fg_empty : foregroundSet negFrame2 = ∅ := by
  apply foreground_empty_of_masked_zero
  intro i j _ _
  simp [maskedImage, negFrame2, labeledForeground]

/-- Threshold of the single-peak frame: `max(1, 1e-4 * 100000) = 10`. -/
lemma peak_threshold : thresholdValue peakFrame3 = 10 := by
  have h : frameMaxQ (maskedImage peakFrame3) = 100000 := by
    simp [frameMaxQ, maskedImage, peakFrame3, labeledForeground, List.range_succ]
    norm_num
  unfold thresholdValue
  rw [h]
  norm_num

/-- Foreground of the single-peak frame: exactly the bright pixel. -/
lemma peak_fg : foregroundSet peakFrame3 = {(1, 1)} := by
  ext p
  simp only [foregroundSet, Finset.mem_filter, Finset.mem_product, Finset.mem_range,
    Finset.mem_singleton, labeledPeak, peak_threshold]
  constructor
  · rintro ⟨⟨h1, h2⟩, hp⟩
    by_contra hne
    have : (maskedImage peakFrame3).val p.1 p.2 = 0 := by
      simp only [maskedImage, peakFrame3, labeledForeground]
      have : ¬ (p.1 = 1 ∧ p.2 = 1) := by
        intro hc
        exact hne (Prod.ext hc.1 hc.2)
      simp [this]
    rw [this] at hp
    norm_num at hp
  · intro hp
    subst hp
    refine ⟨⟨by simp [peakFrame3], by simp [peakFrame3]⟩, ?_⟩
    have : (maskedImage peakFrame3).val 1 1 = 100000 := by
      simp [maskedImage, peakFrame3, labeledForeground]
      norm_num
    rw [this]
    norm_num

/-- Unweighted centroid of the single-peak frame. -/
lemma peak_centroid : centroidOf peakFrame3 = (1, 1) := by
  simp [centroidOf, peak_fg]

/-- Weighted centroid of the single-peak frame. -/
lemma peak_wcentroid : weightedCentroidOf peakFrame3 = (1, 1) := by
  simp only [weightedCentroidOf, wCentroidWith, peak_fg, Finset.sum_singleton]
  simp [peakFrame3]

/-- ROI-integrated intensity of the single-peak frame: the window covers the
whole 3×3 frame, so the sum is the peak value. -/
lemma peak_itotal : iTotalRegion (maskedImage peakFrame3) (1, 1) 25 = 100000 := by
  have hlo : sliceLo ((1 : ℚ)) 25 = 0 := by
    have h := sliceLo_nat 1 25
    norm_num at h
    exact h
  have hhi : sliceHi 3 ((1 : ℚ)) 25 = 3 := by
    have h := sliceHi_nat 3 1 25
    norm_num at h
    exact h
  have hrows : (maskedImage peakFrame3).rows = 3 := by simp [maskedImage, peakFrame3]
  have hcols : (maskedImage peakFrame3).cols = 3 := by simp [maskedImage, peakFrame3]
  simp only [iTotalRegion, hrows, hcols, hlo, hhi]
  rw [Nat.Ico_zero_eq_range]
  simp [Finset.sum_range_succ, maskedImage, peakFrame3, labeledForeground]
  norm_num

/-- The full pipeline on the single-peak frame, for an arbitrary exposure
time: no error, flux = 100000 / e. -/
lemma peak_run (e : ℚ) : runPipeline peakFrame3 e 25 = .ok ⟨(1, 1), 100000 / e⟩ := by
  rw [runPipeline, if_neg (by rw [peak_fg]; norm_num)]
  rw [peak_centroid, peak_wcentroid, peak_itotal]

/-- The ROI sum on the 100×100 all-ones frame at centroid (50, 50) with
half-width 25: the slice bounds are 25 and 75, covering 50×50 pixels. -/
lemma ones_itotal : iTotalRegion onesFrame100 (50, 50) 25 = 2500 := by
  have hlo : sliceLo ((50 : ℚ)) 25 = 25 := by
    have h := sliceLo_nat 50 25
    norm_num at h
    exact h
  have hhi : sliceHi 100 ((50 : ℚ)) 25 = 75 := by
    have h := sliceHi_nat 100 50 25
    norm_num at h
    exact h
  simp only [iTotalRegion, onesFrame100, hlo, hhi]
  simp [Finset.sum_const, Nat.card_Ico]
  norm_num

/-- The ROI sum ranges over the in-bounds pixels lying in the clamped window:
it is the sum over the subset of the frame's index grid cut out by the slice
bounds. -/
lemma itotal_as_filter (m : Frame) (c : ℚ × ℚ) (R : ℕ) :
    iTotalRegion m c R
      = ∑ p in (Finset.range m.rows ×ˢ Finset.range m.cols).filter
          (fun p => sliceLo c.1 R ≤ p.1 ∧ p.1 < sliceHi m.rows c.1 R ∧
                    sliceLo c.2 R ≤ p.2 ∧ p.2 < sliceHi m.cols c.2 R),
          m.val p.1 p.2 := by
  have hr := sliceHi_le m.rows c.1 R
  have hc := sliceHi_le m.cols c.2 R
  rw [iTotalRegion, ← Finset.sum_product']
  congr 1
  ext p
  simp only [Finset.mem_product, Finset.mem_filter, Finset.mem_Ico, Finset.mem_range]
  omega

/-- On every foreground pixel the masked intensity coincides with the raw
intensity: a pixel strictly above the (≥ 1) threshold cannot have been
zeroed by the validity mask. -/
lemma masked_eq_raw_on_fg (f : Frame) :
    ∀ p, p ∈ foregroundSet f → (maskedImage f).val p.1 p.2 = f.val p.1 p.2 := by
  intro p hp
  have hpk : labeledPeak f p.1 p.2 = 1 := (Finset.mem_filter.mp hp).2
  have hlt : thresholdValue f < (maskedImage f).val p.1 p.2 := by
    by_contra hle
    rw [labeledPeak, if_neg hle] at hpk
    norm_num at hpk
  have hone : 1 ≤ thresholdValue f := le_max_left _ _
  unfold maskedImage labeledForeground at hlt ⊢
  by_cases h : 0 ≤ f.val p.1 p.2 ∧ f.val p.1 p.2 ≤ 1000000
  · simp [h]
  · simp only [if_neg h, Int.cast_zero, mul_zero] at hlt
    linarith

/-- Dropping the leading axis lowers the rank by one. -/
lemma meanAxis0_ndim (a : NDArr) : (meanAxis0 a).ndim = a.ndim - 1 := by
  cases a with
  | mk s v => cases s <;> simp [meanAxis0, NDArr.ndim]

/-- The reduction loop body never runs on an array of rank at most 2. -/
lemma reduceSteps_of_ndim_le (n : ℕ) (a : NDArr) (h : a.ndim ≤ 2) : reduceSteps n a = a := by
  cases n with
  | zero => rfl
  | succ n =>
    simp only [reduceSteps]
    rw [if_neg (by omega)]

/-- With enough fuel, the reduction loop brings any array of rank ≥ 2 down to
rank exactly 2. -/
lemma reduceSteps_ndim (n : ℕ) : ∀ a : NDArr, 2 ≤ a.ndim → a.ndim ≤ n + 2 →
    (reduceSteps n a).ndim = 2 := by
  induction n with
  | zero =>
    intro a h1 h2
    simp only [reduceSteps]
    omega
  | succ n ih =>
    intro a h1 h2
    simp only [reduceSteps]
    by_cases h : a.ndim > 2
    · rw [if_pos h]
      exact ih (meanAxis0 a) (by rw [meanAxis0_ndim]; omega) (by rw [meanAxis0_ndim]; omega)
    · rw [if_neg h]
      omega

/-- Averaging a stack of identical slices over axis 0 recovers the slice. -/
lemma meanAxis0_stack (k : ℕ) (m : NDArr) : meanAxis0 (stackOf (k + 1) m) = m := by
  cases m with
  | mk s v =>
    unfold meanAxis0 stackOf
    simp only [List.tail_cons, List.headD_cons]
    congr 1
    funext ix
    rw [Finset.sum_const, Finset.card_range, nsmul_eq_mul]
    exact mul_div_cancel_left₀ _ (by exact_mod_cast Nat.succ_ne_zero k)

/-- A nonempty stack of identical 2-D slices reduces to the slice itself. -/
lemma frameReduce_stack (k : ℕ) (m : NDArr) (h : m.ndim = 2) :
    frameReduce (stackOf (k + 1) m) = m := by
  have hnd : (stackOf (k + 1) m).ndim = 3 := by
    unfold NDArr.ndim at h ⊢
    unfold stackOf
    simp only [List.length_cons]
    omega
  rw [frameReduce, hnd]
  rw [show reduceSteps 3 (stackOf (k + 1) m)
      = reduceSteps 2 (meanAxis0 (stackOf (k + 1) m)) from by
    simp only [reduceSteps]
    rw [if_pos (by rw [hnd]; omega)]]
  rw [meanAxis0_stack]
  exact reduceSteps_of_ndim_le 2 m (by omega)

/-! ### Claim theorems -/

/-- Claim C1, as stated, is false at its own concrete instance: for the
100×100 all-ones masked frame with ROI half-width 25 and centroid (50, 50)
the integrated intensity is not 2601 and the flux at exposure time 2.0 is
not 1300.5, because the upper window edge is exclusive (a Python slice). -/
theorem ones_flux_neq_inclusive_window :
    iTotalRegion onesFrame100 (50, 50) 25 ≠ 2601 ∧
    iTotalRegion onesFrame100 (50, 50) 25 / 2 ≠ 2601 / 2 := by
  rw [ones_itotal]
  norm_num

/-- Claim C1 (amended): the Flux Integrator sums masked intensity over the
half-open window `[int(c0) − R, int(c0) + R) × [int(c1) − R, int(c1) + R)`
with the lower edge clamped to 0 and the upper edge clamped to the frame
extent (the upper end is exclusive, as a Python slice); for the 100×100
all-ones masked frame with R = 25, centroid (50, 50) and exposure time 2.0,
the integrated intensity is 50×50 = 2500 and the flux is 1250. -/
theorem ones_flux_halfopen_window :
    iTotalRegion onesFrame100 (50, 50) 25 = 2500 ∧
    iTotalRegion onesFrame100 (50, 50) 25 / 2 = 1250 ∧
    ∀ (m : Frame) (c : ℚ × ℚ) (R : ℕ),
      iTotalRegion m c R
        = ∑ i in Finset.Ico (sliceLo c.1 R) (sliceHi m.rows c.1 R),
            ∑ j in Finset.Ico (sliceLo c.2 R) (sliceHi m.cols c.2 R), m.val i j := by
  refine ⟨ones_itotal, ?_, fun m c R => rfl⟩
  rw [ones_itotal]
  norm_num

/-- Claim C2, as stated, is false: for exposure_time = −1.0 the pipeline does
not signal an InvalidExposureTime condition; on the single-peak frame it
returns the result pair with a (negative) flux of −100000. -/
theorem exposure_neg_one_not_rejected :
    runPipeline peakFrame3 (-1) 25 = Except.ok ⟨(1, 1), -100000⟩ ∧
    runPipeline peakFrame3 (-1) 25 ≠ Except.error PipeError.invalidExposureTime := by
  have h : runPipeline peakFrame3 (-1) 25 = Except.ok ⟨(1, 1), -100000⟩ := by
    rw [peak_run (-1)]
    norm_num
  exact ⟨h, by rw [h]; exact fun hc => Except.noConfusion hc⟩

/-- Claim C2 (amended): no exposure-time validation exists in the code — an
InvalidExposureTime condition is never signaled for any exposure time
(positive, zero, or negative); whenever a foreground region exists the
pipeline returns the result with flux = integrated intensity / exposure
time, for every exposure time. -/
theorem invalid_exposure_never_signaled :
    ∀ (f : Frame) (e : ℚ) (R : ℕ),
      runPipeline f e R ≠ Except.error PipeError.invalidExposureTime ∧
      (foregroundSet f ≠ ∅ →
        runPipeline f e R
          = Except.ok ⟨centroidOf f,
              iTotalRegion (maskedImage f) (weightedCentroidOf f) R / e⟩) := by
  intro f e R
  constructor
  · unfold runPipeline
    split
    · intro h
      injection h with h
      exact PipeError.noConfusion h
    · intro h
      exact Except.noConfusion h
  · intro hne
    rw [runPipeline, if_neg (by simpa [Finset.card_eq_zero] using hne)]

/-- Witness for the amended claim C2: on the single-peak frame with exposure
time 4 the hypothesis (a nonempty foreground) holds and the pipeline returns
the flux quotient. -/
theorem invalid_exposure_never_signaled_witness :
    foregroundSet peakFrame3 ≠ ∅ ∧
    runPipeline peakFrame3 4 25
      = Except.ok ⟨centroidOf peakFrame3,
          iTotalRegion (maskedImage peakFrame3) (weightedCentroidOf peakFrame3) 25 / 4⟩ := by
  have hne : foregroundSet peakFrame3 ≠ ∅ := by
    rw [peak_fg]
    simp
  exact ⟨hne, (invalid_exposure_never_signaled peakFrame3 4 25).2 hne⟩

/-- Claim C3, as stated, is false at the all-zero frame: when the foreground
mask has zero true pixels the pipeline produces the IndexError of
`properties[0]` on an empty region list, not a NoRegionFound condition. -/
theorem empty_mask_gives_index_error_concrete :
    runPipeline zeroFrame2 1 25 = Except.error PipeError.indexError ∧
    PipeError.indexError ≠ PipeError.noRegionFound := by
  constructor
  · rw [runPipeline, if_pos (by rw [zero2_fg_empty]; simp)]
  · exact fun h => PipeError.noConfusion h

/-- Claim C3 (amended): for every frame whose foreground mask has zero true
pixels, the pipeline fails with the unrelated indexing failure (the
IndexError raised by `properties[0]` on the empty list returned by
`regionprops`); no NoRegionFound condition is signaled. -/
theorem empty_mask_gives_index_error :
    ∀ (f : Frame) (e : ℚ) (R : ℕ), foregroundSet f = ∅ →
      runPipeline f e R = Except.error PipeError.indexError := by
  intro f e R h
  rw [runPipeline, if_pos (by rw [h]; simp)]

/-- Witness for the amended claim C3: the all-invalid (all-negative) frame has
an empty foreground, and the pipeline fails with the indexing error there. -/
theorem empty_mask_gives_index_error_witness :
    foregroundSet negFrame2 = ∅ ∧
    runPipeline negFrame2 1 25 = Except.error PipeError.indexError :=
  ⟨neg2_fg_empty, empty_mask_gives_index_error negFrame2 1 25 neg2_fg_empty⟩

/-- Claim C4, as stated, is false: on a rank-1 input the Frame Reducer does
not fail with a ShapeError — the reduction loop's guard is already false, so
the input is returned unchanged. -/
theorem rank1_reducer_returns_input :
    frameReduce ⟨[3], fun _ => 7⟩ = (⟨[3], fun _ => 7⟩ : NDArr) ∧
    (⟨[3], fun _ => 7⟩ : NDArr).ndim = 1 :=
  ⟨reduceSteps_of_ndim_le _ _ (by simp [NDArr.ndim]), rfl⟩

/-- Claim C4 (amended): for every input array of rank strictly less than 2
the Frame Reducer returns the input unchanged (the `while ndim > 2` loop is a
no-op); no ShapeError exists in the code — any failure on such inputs occurs
only in later pipeline stages, as an indexing error. -/
theorem rank_lt_two_reducer_noop :
    ∀ a : NDArr, a.ndim < 2 → frameReduce a = a := by
  intro a h
  exact reduceSteps_of_ndim_le _ _ (by omega)

/-- Witness for the amended claim C4: a concrete rank-0 array is returned
unchanged by the Frame Reducer. -/
theorem rank_lt_two_reducer_noop_witness :
    (⟨[], fun _ => 2⟩ : NDArr).ndim < 2 ∧
    frameReduce ⟨[], fun _ => 2⟩ = (⟨[], fun _ => 2⟩ : NDArr) :=
  ⟨by simp [NDArr.ndim], rank_lt_two_reducer_noop ⟨[], fun _ => 2⟩ (by simp [NDArr.ndim])⟩

/-- Claim C5: the flux-integration ROI is clipped to the frame's spatial
bounds on both axes, so the integrated sum ranges only over in-bounds pixels
(no wraparound, no padding); for centroid (2, 2) with ROI half-width 25 on a
100×100 frame the slice bounds clamp to 0 and 27 on both axes; and the
pipeline centers the ROI on the weighted (not the unweighted) centroid. -/
theorem roi_clipped_to_frame_bounds :
    (∀ (m : Frame) (c : ℚ × ℚ) (R : ℕ),
      sliceHi m.rows c.1 R ≤ m.rows ∧ sliceHi m.cols c.2 R ≤ m.cols ∧
      iTotalRegion m c R
        = ∑ p in (Finset.range m.rows ×ˢ Finset.range m.cols).filter
            (fun p => sliceLo c.1 R ≤ p.1 ∧ p.1 < sliceHi m.rows c.1 R ∧
                      sliceLo c.2 R ≤ p.2 ∧ p.2 < sliceHi m.cols c.2 R),
            m.val p.1 p.2) ∧
    (sliceLo (2 : ℚ) 25 = 0 ∧ sliceHi 100 (2 : ℚ) 25 = 27) ∧
    (∀ (f : Frame) (e : ℚ) (R : ℕ), foregroundSet f ≠ ∅ →
      runPipeline f e R
        = Except.ok ⟨centroidOf f,
            iTotalRegion (maskedImage f) (weightedCentroidOf f) R / e⟩) := by
  refine ⟨fun m c R => ⟨sliceHi_le _ _ _, sliceHi_le _ _ _, itotal_as_filter m c R⟩, ⟨?_, ?_⟩, ?_⟩
  · have h := sliceLo_nat 2 25
    norm_num at h
    exact h
  · have h := sliceHi_nat 100 2 25
    norm_num at h
    exact h
  · intro f e R hne
    rw [runPipeline, if_neg (by simpa [Finset.card_eq_zero] using hne)]

/-- Witness for claim C5: on the single-peak frame the nonempty-foreground
hypothesis holds, and the pipeline integrates around the weighted centroid. -/
theorem roi_clipped_to_frame_bounds_witness :
    foregroundSet peakFrame3 ≠ ∅ ∧
    runPipeline peakFrame3 1 10
      = Except.ok ⟨centroidOf peakFrame3,
          iTotalRegion (maskedImage peakFrame3) (weightedCentroidOf peakFrame3) 10 / 1⟩ := by
  have hne : foregroundSet peakFrame3 ≠ ∅ := by
    rw [peak_fg]
    simp
  exact ⟨hne, roi_clipped_to_frame_bounds.2.2 peakFrame3 1 10 hne⟩

/-- Claim C6: the Validity Masker's mask is true (value 1) exactly where the
intensity lies in [0, 10^6], and the masked frame equals the frame where the
mask holds and 0 elsewhere. -/
theorem validity_masker_pointwise :
    ∀ (f : Frame) (i j : ℕ),
      (labeledForeground f i j = 1 ↔ (0 ≤ f.val i j ∧ f.val i j ≤ 1000000)) ∧
      (maskedImage f).val i j = (if labeledForeground f i j = 1 then f.val i j else 0) := by
  intro f i j
  by_cases h : 0 ≤ f.val i j ∧ f.val i j ≤ 1000000
  · simp [labeledForeground, maskedImage, h]
  · simp [labeledForeground, maskedImage, h]

/-- Claim C7: the Peak Segmenter's threshold is `max(1, 1e-4 * max(masked))`,
hence always at least 1 (also when the masked maximum is 0); the foreground
mask is true exactly where the masked intensity strictly exceeds the
threshold; and an all-zero masked frame yields an empty foreground mask. -/
theorem peak_segmenter_threshold_floor :
    ∀ f : Frame,
      1 ≤ thresholdValue f ∧
      (∀ i j, labeledPeak f i j = 1 ↔ thresholdValue f < (maskedImage f).val i j) ∧
      ((∀ i j, i < f.rows → j < f.cols → (maskedImage f).val i j = 0) →
        foregroundSet f = ∅) := by
  intro f
  refine ⟨le_max_left _ _, fun i j => ?_, foreground_empty_of_masked_zero f⟩
  unfold labeledPeak
  by_cases h : thresholdValue f < (maskedImage f).val i j
  · simp [h]
  · simp [h]

/-- Witness for claim C7: the all-zero 2×2 frame satisfies the all-zero
hypothesis and indeed yields an empty foreground mask. -/
theorem peak_segmenter_threshold_floor_witness :
    (∀ i j, i < zeroFrame2.rows → j < zeroFrame2.cols →
      (maskedImage zeroFrame2).val i j = 0) ∧
    foregroundSet zeroFrame2 = ∅ := by
  have h : ∀ i j, i < zeroFrame2.rows → j < zeroFrame2.cols →
      (maskedImage zeroFrame2).val i j = 0 := by
    intro i j _ _
    simp [maskedImage, zeroFrame2]
  exact ⟨h, (peak_segmenter_threshold_floor zeroFrame2).2.2 h⟩

/-- Claim C8: the Frame Reducer maps every array of rank at least 2 to an
array of rank exactly 2; a rank-2 input is returned unchanged (zero
iterations); and a nonempty stack of identical 2-D slices reduces, by
iterated axis-0 arithmetic means, to that slice (units preserved). -/
theorem frame_reducer_contract :
    (∀ a : NDArr, 2 ≤ a.ndim → (frameReduce a).ndim = 2) ∧
    (∀ a : NDArr, a.ndim = 2 → frameReduce a = a) ∧
    (∀ (k : ℕ) (m : NDArr), m.ndim = 2 → frameReduce (stackOf (k + 1) m) = m) := by
  refine ⟨fun a h => ?_, fun a h => reduceSteps_of_ndim_le _ _ (le_of_eq h), frameReduce_stack⟩
  rw [frameReduce]
  exact reduceSteps_ndim _ a h (by omega)

/-- Witness for claim C8: a stack of three identical 2×2 slices has rank 3 and
reduces to the slice; the concrete slice has rank 2 and is itself fixed. -/
theorem frame_reducer_contract_witness :
    2 ≤ (stackOf 3 ⟨[2, 2], fun _ => 5⟩ : NDArr).ndim ∧
    (frameReduce (stackOf 3 ⟨[2, 2], fun _ => 5⟩)).ndim = 2 ∧
    (⟨[2, 2], fun _ => 5⟩ : NDArr).ndim = 2 ∧
    frameReduce (stackOf 3 ⟨[2, 2], fun _ => 5⟩) = (⟨[2, 2], fun _ => 5⟩ : NDArr) := by
  refine ⟨by simp [NDArr.ndim, stackOf], ?_, rfl, ?_⟩
  · exact frame_reducer_contract.1 _ (by simp [NDArr.ndim, stackOf])
  · exact frame_reducer_contract.2.2 2 ⟨[2, 2], fun _ => 5⟩ rfl

/-- Claim C9: the weighted centroid is computed with the raw (unmasked)
intensity frame as the weight image — each foreground pixel contributes its
raw intensity `f.val` to the weighted sums — and on every foreground pixel
the masked intensity coincides with that raw intensity (so no pixel zeroed
by the validity mask can lie in the foreground). -/
theorem weighted_centroid_uses_raw_frame :
    ∀ f : Frame,
      weightedCentroidOf f
        = ((∑ p in foregroundSet f, f.val p.1 p.2 * (p.1 : ℚ))
             / (∑ p in foregroundSet f, f.val p.1 p.2),
           (∑ p in foregroundSet f, f.val p.1 p.2 * (p.2 : ℚ))
             / (∑ p in foregroundSet f, f.val p.1 p.2)) ∧
      (∀ p, p ∈ foregroundSet f → (maskedImage f).val p.1 p.2 = f.val p.1 p.2) :=
  fun f => ⟨rfl, masked_eq_raw_on_fg f⟩

/-- Witness for claim C9: the peak pixel (1, 1) is in the foreground of the
single-peak frame, and its masked intensity equals its raw intensity. -/
theorem weighted_centroid_uses_raw_frame_witness :
    (1, 1) ∈ foregroundSet peakFrame3 ∧
    (maskedImage peakFrame3).val 1 1 = peakFrame3.val 1 1 := by
  have hmem : (1, 1) ∈ foregroundSet peakFrame3 := by
    rw [peak_fg]
    simp
  exact ⟨hmem, (weighted_centroid_uses_raw_frame peakFrame3).2 (1, 1) hmem⟩

/-- Claim C10: with no key-value configuration the ROI half-width defaults to
25; with a supplied mapping the key `'roi_size'` is looked up unconditionally,
so a mapping lacking that key fails with the lookup (KeyError) condition
rather than falling back to the default. -/
theorem roi_size_requires_key :
    roiSizeOf none = Except.ok 25 ∧
    ∀ kv : List (String × String), (∀ p ∈ kv, p.1 ≠ "roi_size") →
      roiSizeOf (some kv) = Except.error KVError.keyNotFound := by
  refine ⟨rfl, fun kv h => ?_⟩
  have hf : kv.find? (fun p => p.1 = "roi_size") = none :=
    List.find?_eq_none.mpr (fun x hx => by simpa using h x hx)
  simp [roiSizeOf, lookupKV, hf]

/-- Witness for claim C10: a mapping with an unrelated key satisfies the
missing-key hypothesis and makes the lookup fail. -/
theorem roi_size_requires_key_witness :
    (∀ p ∈ [("exposure", "3")], p.1 ≠ "roi_size") ∧
    roiSizeOf (some [("exposure", "3")]) = Except.error KVError.keyNotFound := by
  have h : ∀ p ∈ [("exposure", "3")], p.1 ≠ "roi_size" := by
    intro p hp
    simp only [List.mem_singleton] at hp
    subst hp
    simp
  exact ⟨h, roi_size_requires_key.2 [("exposure", "3")] h⟩
